import Mathlib

/-!
# Flocker convergence model: datasets, applications and the diff engine

A shallow embedding of the data model and operations of the flocker
repository.  The repository's own sources in scope here are the dataset
acceptance tests (`flocker/acceptance/endtoend/test_dataset.py`), the port
acceptance tests (`flocker/acceptance/test_ports.py`) and the Rackspace
provisioner (`flocker/provision/_rackspace.py`).  The convergence core
(diff engine, change executor, REST layer) is not among the sources, so it
is modelled from the specification, as marked on each definition.
-/

set_option autoImplicit false

namespace Flocker

/-- Modelled from the spec: a `Dataset` has an immutable `dataset_id`
(UUID, modelled as `Nat`), an optional `maximum_size` in bytes, a
`primary` node identifier, and string-to-string `metadata`. -/
structure Dataset where
  dataset_id : Nat
  maximum_size : Option Nat
  primary : Nat
  metadata : List (String × String)
  deriving DecidableEq, Repr

/-- Modelled from the spec: a `PortMap` entry is an
(internal_port, external_port) pair. -/
structure PortMap where
  internal_port : Nat
  external_port : Nat
  deriving DecidableEq, Repr

/-- Modelled from the spec: a `Volume` is a (node_path, container_path)
pair. -/
structure Volume where
  node_path : String
  container_path : String
  deriving DecidableEq, Repr

/-- Modelled from the spec: activation state of an application,
a variant over {active, inactive, transitioning}. -/
inductive ActivationState where
  | active
  | inactive
  | transitioning
  deriving DecidableEq, Repr

/-- Modelled from the spec: an `Application` has a name, a container image
reference, a `PortMap` set, a `Volume` set and an activation state. -/
structure Application where
  name : String
  image : String
  ports : List PortMap
  volumes : List Volume
  activation_state : ActivationState
  deriving DecidableEq, Repr

/-- Modelled from the spec: application value equality used by the diff
engine — "diff desired vs actual Application sets by
name+image+ports+volumes (value equality, not identity)"; the activation
state is not part of the comparison. -/
def appEq (a b : Application) : Bool :=
  decide (a.name = b.name ∧ a.image = b.image ∧ a.ports = b.ports ∧
    a.volumes = b.volumes)

/-- Modelled from the spec: both the `DesiredConfiguration` and the
`ActualStateSnapshot` describe a set of datasets (keyed by `dataset_id`)
and, per node, the set of applications on that node. -/
structure ClusterState where
  datasets : List Dataset
  nodeApps : List (Nat × List Application)
  deriving DecidableEq, Repr

/-- Modelled from the spec: a valid state has globally unique dataset ids
("dataset_id is globally unique") and one applications entry per node. -/
def validState (s : ClusterState) : Prop :=
  (s.datasets.map (fun d => d.dataset_id)).Nodup ∧
    (s.nodeApps.map (fun p => p.1)).Nodup

instance validState.instDecidable (s : ClusterState) :
    Decidable (validState s) := by
  unfold validState; infer_instance

/-- Modelled from the spec: the `Change` variant — CreateDataset,
DeleteDataset, MoveDataset(dataset_id, from_node, to_node),
CreateContainer, StopContainer, plus the edge-case resize and
metadata-update changes. -/
inductive Change where
  | CreateDataset (dataset_id : Nat) (node : Nat) (size : Option Nat)
      (metadata : List (String × String))
  | DeleteDataset (dataset_id : Nat)
  | MoveDataset (dataset_id : Nat) (from_node : Nat) (to_node : Nat)
  | Resize (dataset_id : Nat) (size : Option Nat)
  | MetadataUpdate (dataset_id : Nat) (metadata : List (String × String))
  | CreateContainer (node : Nat) (app : Application)
  | StopContainer (node : Nat) (app : Application)
  deriving DecidableEq, Repr

/-- Modelled from the spec: per-change outcome reported by the change
executor, a variant over {Succeeded, Failed(reason), Skipped(reason)}. -/
inductive Outcome where
  | Succeeded
  | Failed (reason : String)
  | Skipped (reason : String)
  deriving DecidableEq, Repr

/-- Look up a dataset by id: the first dataset of the list whose
`dataset_id` matches. -/
def findDataset (id : Nat) (ds : List Dataset) : Option Dataset :=
  ds.find? (fun d => d.dataset_id == id)

/-- Modelled from the spec: "For each dataset present in `desired` but
absent in `actual`: emit CreateDataset on the desired primary node"
(carrying the desired size and metadata). -/
def createChanges (actual desired : List Dataset) : List Change :=
  (desired.filter (fun d => (findDataset d.dataset_id actual).isNone)).map
    (fun d => Change.CreateDataset d.dataset_id d.primary d.maximum_size
      d.metadata)

/-- Modelled from the spec: "For each dataset present in `actual` but
absent in `desired`: emit DeleteDataset". -/
def deleteChanges (actual desired : List Dataset) : List Change :=
  (actual.filter (fun d => (findDataset d.dataset_id desired).isNone)).map
    (fun d => Change.DeleteDataset d.dataset_id)

/-- Modelled from the spec: for a dataset present in both states, "where
`desired.primary != actual.primary`: emit
MoveDataset(from=actual.primary, to=desired.primary)"; otherwise "size
changes alone (no primary change) emit a resize Change; metadata-only
changes emit a metadata-update Change". -/
def updateChange (actual : List Dataset) (d : Dataset) : Option Change :=
  match findDataset d.dataset_id actual with
  | none => none
  | some a =>
    if a.primary ≠ d.primary then
      some (Change.MoveDataset d.dataset_id a.primary d.primary)
    else if a.maximum_size ≠ d.maximum_size then
      some (Change.Resize d.dataset_id d.maximum_size)
    else if a.metadata ≠ d.metadata then
      some (Change.MetadataUpdate d.dataset_id d.metadata)
    else none

/-- All in-both dataset changes, one per desired dataset at most. -/
def updateChanges (actual desired : List Dataset) : List Change :=
  desired.filterMap (updateChange actual)

/-- Modelled from the spec: the dataset part of the diff — creations,
then deletions, then in-both updates. -/
def datasetChanges (actual desired : ClusterState) : List Change :=
  createChanges actual.datasets desired.datasets ++
    deleteChanges actual.datasets desired.datasets ++
    updateChanges actual.datasets desired.datasets

/-- The applications recorded for node `n`, empty when the node has no
entry. -/
def appsOn (n : Nat) (s : ClusterState) : List Application :=
  match s.nodeApps.find? (fun p => p.1 == n) with
  | some p => p.2
  | none => []

/-- Desired applications with no value-equal counterpart on the node. -/
def missingApps (actualApps desiredApps : List Application) :
    List Application :=
  desiredApps.filter (fun d => !(actualApps.any (fun a => appEq a d)))

/-- Actual applications with no value-equal counterpart in the desired
set. -/
def extraApps (actualApps desiredApps : List Application) :
    List Application :=
  actualApps.filter (fun a => !(desiredApps.any (fun d => appEq a d)))

/-- Modelled from the spec: "For each node, diff desired vs actual
Application sets ...: missing desired applications emit CreateContainer;
extra actual applications emit StopContainer". -/
def containerChangesOn (actual desired : ClusterState) (n : Nat) :
    List Change :=
  (missingApps (appsOn n actual) (appsOn n desired)).map
      (fun a => Change.CreateContainer n a) ++
    (extraApps (appsOn n actual) (appsOn n desired)).map
      (fun a => Change.StopContainer n a)

/-- The node identifiers recorded in a state. -/
def nodeIds (s : ClusterState) : List Nat := s.nodeApps.map (fun p => p.1)

/-- All nodes mentioned by either state, desired nodes first. -/
def nodesOf (actual desired : ClusterState) : List Nat :=
  nodeIds desired ++
    (nodeIds actual).filter (fun n => decide (n ∉ nodeIds desired))

/-- The container part of the diff, node by node. -/
def containerChanges (actual desired : ClusterState) : List Change :=
  (nodesOf actual desired).foldr
    (fun n acc => containerChangesOn actual desired n ++ acc) []

/-- Modelled from the spec: the diff engine.
`compute_changes(actual, desired)` returns the ordered change list,
dataset changes before container changes ("dataset changes are emitted
before container changes"). -/
def compute_changes (actual desired : ClusterState) : List Change :=
  datasetChanges actual desired ++ containerChanges actual desired

/-- The single-dataset effect of an in-both update change: only the
dataset with the matching id is touched, and only the named field. -/
def updateOne (x : Dataset) (c : Change) : Dataset :=
  match c with
  | Change.MoveDataset id _ toN =>
      if x.dataset_id == id then { x with primary := toN } else x
  | Change.Resize id size =>
      if x.dataset_id == id then { x with maximum_size := size } else x
  | Change.MetadataUpdate id meta =>
      if x.dataset_id == id then { x with metadata := meta } else x
  | _ => x

/-- Modelled from the spec: the effect of a dataset change on the dataset
list.  A create appends the new dataset; a delete removes the id; a
successful move updates only the `primary` ("update the dataset's
`primary` only after attach succeeds"); resize and metadata-update touch
only their field. -/
def applyDatasetChange (ds : List Dataset) (c : Change) : List Dataset :=
  match c with
  | Change.CreateDataset id node size meta => ds ++ [⟨id, size, node, meta⟩]
  | Change.DeleteDataset id => ds.filter (fun d => !(d.dataset_id == id))
  | Change.MoveDataset _ _ _ => ds.map (fun d => updateOne d c)
  | Change.Resize _ _ => ds.map (fun d => updateOne d c)
  | Change.MetadataUpdate _ _ => ds.map (fun d => updateOne d c)
  | _ => ds

/-- Replace (or record) the application list of node `n`. -/
def setApps (n : Nat) (apps : List Application) (s : ClusterState) :
    ClusterState :=
  if (s.nodeApps.find? (fun p => p.1 == n)).isSome then
    { s with nodeApps :=
        s.nodeApps.map (fun p => if p.1 == n then (n, apps) else p) }
  else
    { s with nodeApps := s.nodeApps ++ [(n, apps)] }

/-- A created container is observed as an active unit. -/
def activate (a : Application) : Application :=
  { a with activation_state := ActivationState.active }

/-- Modelled from the spec: the change executor's successful application
of one change to the actual state.  Container changes touch only the
node's application list; dataset changes touch only the dataset list. -/
def applyChange (s : ClusterState) (c : Change) : ClusterState :=
  match c with
  | Change.CreateContainer n app =>
      setApps n (appsOn n s ++ [activate app]) s
  | Change.StopContainer n app =>
      setApps n ((appsOn n s).filter (fun a => !(appEq a app))) s
  | c => { s with datasets := applyDatasetChange s.datasets c }

/-- Successful application of a whole change batch, in order. -/
def applyChanges (s : ClusterState) (cs : List Change) : ClusterState :=
  cs.foldl applyChange s

/-- Modelled from the spec: the MoveDataset sub-protocol — (a) mark the
handoff, (b) backend transfer, (c) backend attach, (d) "update the
dataset's `primary` only after attach succeeds.  If step (b) or (c)
fails, the dataset's `primary` remains unchanged ... and the Change is
reported Failed".  The two booleans say whether the backend transfer and
attach steps succeed. -/
def applyMoveProtocol (transfer_ok attach_ok : Bool) (s : ClusterState)
    (id fromN toN : Nat) : ClusterState × Outcome :=
  if transfer_ok = false then (s, Outcome.Failed "backend transfer failed")
  else if attach_ok = false then (s, Outcome.Failed "backend attach failed")
  else ({ s with datasets :=
            applyDatasetChange s.datasets (Change.MoveDataset id fromN toN) },
        Outcome.Succeeded)

/-- Modelled from the spec: `DELETE /datasets/<id>` records the
desired-state change — the dataset is removed from the desired
configuration — and returns immediately; the actual state is not an
input and is not touched.  Convergence happens out of band. -/
def delete_dataset (desired : ClusterState) (id : Nat) : ClusterState :=
  { desired with
      datasets := desired.datasets.filter (fun d => !(d.dataset_id == id)) }

/-- Change classifier: the dataset-level changes. -/
def isDatasetChange (c : Change) : Bool :=
  match c with
  | Change.CreateDataset _ _ _ _ => true
  | Change.DeleteDataset _ => true
  | Change.MoveDataset _ _ _ => true
  | Change.Resize _ _ => true
  | Change.MetadataUpdate _ _ => true
  | _ => false

/-- Change classifier: the container-level changes. -/
def isContainerChange (c : Change) : Bool :=
  match c with
  | Change.CreateContainer _ _ => true
  | Change.StopContainer _ _ => true
  | _ => false

/-- Does this change carry a `CreateDataset` for the given id? -/
def isCreateOf (id : Nat) (c : Change) : Bool :=
  match c with
  | Change.CreateDataset i _ _ _ => i == id
  | _ => false

/-- Does this container change target node `n`? -/
def touchesNode (c : Change) (n : Nat) : Bool :=
  match c with
  | Change.CreateContainer m _ => m == n
  | Change.StopContainer m _ => m == n
  | _ => false

/-- For a dataset present in both states: at most one of the three
mutable attributes (primary, maximum_size, metadata) differs between the
actual and the desired record. -/
def atMostOneFieldDiff (a d : Dataset) : Prop :=
  (a.primary ≠ d.primary →
      a.maximum_size = d.maximum_size ∧ a.metadata = d.metadata) ∧
    (a.maximum_size ≠ d.maximum_size → a.metadata = d.metadata)

instance atMostOneFieldDiff.instDecidable (a d : Dataset) :
    Decidable (atMostOneFieldDiff a d) := by
  unfold atMostOneFieldDiff; infer_instance

/-! ## The Rackspace provisioner (`flocker/provision/_rackspace.py`)

The libcloud driver and the `install` routine are external collaborators;
they are modelled as an abstract record of functions, and
`Rackspace.create_node` additionally returns the ordered list of external
calls it makes, so that sequencing can be stated. -/

/-- An opaque libcloud compute node. -/
structure CloudNode where
  node_id : Nat
  deriving DecidableEq, Repr

/-- One external call made by the provisioner, in program order. -/
inductive ProvisionEvent where
  | driver_create_node (name image size keyname : String)
      (userdata : Option String) (config_drive : String)
  | wait_until_running (node : CloudNode) (address : String)
  | install (addresses : List String) (username : String)
  deriving DecidableEq, Repr

/-- The libcloud driver interface used by `Rackspace.create_node`:
`create_node(name, image, size, ex_keyname, ex_userdata, ex_config_drive)`,
`wait_until_running` (returning the refreshed node and its address),
`get_image` and `get_size` lookups. -/
structure LibcloudDriver where
  create_node : String → String → String → String → Option String →
    String → CloudNode
  wait_until_running : CloudNode → CloudNode × String
  get_image : String → String
  get_size : String → String

/-- `RackspaceNode(node=..., address=...)` as returned by `create_node`. -/
structure RackspaceNode where
  node : CloudNode
  address : String
  deriving DecidableEq, Repr

/-- The `Rackspace` provisioner: a configured `_keyname` and a driver. -/
structure Rackspace where
  keyname : String
  driver : LibcloudDriver

/-- `Rackspace.create_node` from `flocker/provision/_rackspace.py`: when
`keyname` is `None` the configured `_keyname` is used; the node is created
through the driver, `wait_until_running` is awaited, `install` is run on
the resulting address with user `"root"`, and a `RackspaceNode` carrying
that node and address is returned.  The second component records the
external calls in program order.  The python defaults
(`userdata=None`, `size="performance1-2"`, `disk_size=8`,
`keyname=None`) are supplied by the caller here; `disk_size` is accepted
and unused, as in the source. -/
def Rackspace.create_node (r : Rackspace) (name image_name : String)
    (userdata : Option String) (size : String) (disk_size : Nat)
    (keyname : Option String) : RackspaceNode × List ProvisionEvent :=
  let kn := match keyname with
    | none => r.keyname
    | some k => k
  let node0 := r.driver.create_node name (r.driver.get_image image_name)
    (r.driver.get_size size) kn userdata "true"
  let res := r.driver.wait_until_running node0
  (⟨res.1, res.2⟩,
    [ProvisionEvent.driver_create_node name (r.driver.get_image image_name)
        (r.driver.get_size size) kn userdata "true",
      ProvisionEvent.wait_until_running res.1 res.2,
      ProvisionEvent.install [res.2] "root"])

/-! ## Concrete inputs used by witnesses and scenarios -/

/-- The empty cluster. -/
def emptyState : ClusterState := ⟨[], []⟩

/-- A sample application used in witnesses. -/
def sampleApp : Application :=
  ⟨"app", "image", [⟨80, 8080⟩], [], ActivationState.active⟩

/-- A sample valid cluster state. -/
def sampleState : ClusterState :=
  ⟨[⟨1, some 5, 0, [("k", "v")]⟩, ⟨2, none, 1, []⟩],
    [(0, [sampleApp]), (1, [])]⟩

/-- Witness actual state: dataset 1 on node 0, two nodes. -/
def moveActual : ClusterState :=
  ⟨[⟨1, some 5, 0, []⟩], [(0, []), (1, [])]⟩

/-- Witness desired state: dataset 1 on node 1, two nodes. -/
def moveDesired : ClusterState :=
  ⟨[⟨1, some 5, 1, []⟩], [(0, []), (1, [])]⟩

/-- Counterexample actual state: dataset 1 on node 0 with size 1. -/
def bothDiffActual : ClusterState := ⟨[⟨1, some 1, 0, []⟩], []⟩

/-- Counterexample desired state: dataset 1 on node 1 with size 2 — both
the primary and the maximum size differ from `bothDiffActual`. -/
def bothDiffDesired : ClusterState := ⟨[⟨1, some 2, 1, []⟩], []⟩

/-- The C6 scenario desired state: nodes A=0 and B=1 with no
applications, and dataset D1 (id 1) with primary A and size 1GB. -/
def createScenarioDesired : ClusterState :=
  ⟨[⟨1, some 1073741824, 0, []⟩], [(0, []), (1, [])]⟩

/-- The mongodb application of the ports acceptance test: internal port
27017 mapped to external port 27018, with the image's two data volumes. -/
def mongoApp : Application :=
  ⟨"mongodb-example-application", "clusterhq/mongodb",
    [⟨27017, 27018⟩],
    [⟨"/some_path", "/data/db"⟩, ⟨"/some_path", "/data/log"⟩],
    ActivationState.active⟩

/-- The ports test's initial actual state: two nodes, no units. -/
def portsActual : ClusterState := ⟨[], [(0, []), (1, [])]⟩

/-- The ports test's desired state: `mongoApp` on node 0 (node_1), nothing
on node 1 (node_2). -/
def portsDesired : ClusterState := ⟨[], [(0, [mongoApp]), (1, [])]⟩

/-- A concrete libcloud driver used by the `create_node` witness. -/
def sampleDriver : LibcloudDriver where
  create_node := fun _ _ _ _ _ _ => ⟨7⟩
  wait_until_running := fun n => (⟨n.node_id + 1⟩, "10.0.0.1")
  get_image := fun s => s
  get_size := fun s => s

/-- A concrete `Rackspace` provisioner used by the `create_node`
witness. -/
def sampleRackspace : Rackspace := ⟨"configured-key", sampleDriver⟩

/-! ## Lemmas about application value equality -/

theorem appEq_iff (a b : Application) :
    appEq a b = true ↔
      a.name = b.name ∧ a.image = b.image ∧ a.ports = b.ports ∧
        a.volumes = b.volumes := by
  simp [appEq]

theorem appEq_refl (a : Application) : appEq a a = true := by
  simp [appEq]

theorem appEq_symm {a b : Application} (h : appEq a b = true) :
    appEq b a = true := by
  rw [appEq_iff] at h ⊢
  exact ⟨h.1.symm, h.2.1.symm, h.2.2.1.symm, h.2.2.2.symm⟩

theorem appEq_trans {a b c : Application} (h1 : appEq a b = true)
    (h2 : appEq b c = true) : appEq a c = true := by
  rw [appEq_iff] at h1 h2 ⊢
  exact ⟨h1.1.trans h2.1, h1.2.1.trans h2.2.1, h1.2.2.1.trans h2.2.2.1,
    h1.2.2.2.trans h2.2.2.2⟩

theorem appEq_activate_left (a b : Application) :
    appEq (activate a) b = appEq a b := by
  simp [appEq, activate]

/-! ## Lemmas about dataset lookup -/

theorem findDataset_eq_none_iff (id : Nat) (l : List Dataset) :
    findDataset id l = none ↔ ∀ d ∈ l, d.dataset_id ≠ id := by
  simp [findDataset, List.find?_eq_none]

theorem findDataset_isSome_iff (id : Nat) (l : List Dataset) :
    (findDataset id l).isSome = true ↔ ∃ d ∈ l, d.dataset_id = id := by
  simp [findDataset, List.find?_isSome]

theorem mem_of_findDataset {id : Nat} {l : List Dataset} {d : Dataset}
    (h : findDataset id l = some d) : d ∈ l :=
  List.mem_of_find?_eq_some h

theorem id_of_findDataset {id : Nat} {l : List Dataset} {d : Dataset}
    (h : findDataset id l = some d) : d.dataset_id = id := by
  have h2 := List.find?_some h
  simpa using h2

theorem findDataset_self {l : List Dataset} {d : Dataset}
    (hn : (l.map (fun x => x.dataset_id)).Nodup) (hm : d ∈ l) :
    findDataset d.dataset_id l = some d := by
  induction l with
  | nil => cases hm
  | cons x t ih =>
    simp only [List.map_cons, List.nodup_cons] at hn
    rcases List.mem_cons.mp hm with h | h
    · subst h
      unfold findDataset
      rw [List.find?_cons_of_pos]
      simp
    · have hx : x.dataset_id ≠ d.dataset_id := by
        intro he
        exact hn.1 (by rw [he]; exact List.mem_map_of_mem _ h)
      unfold findDataset
      rw [List.find?_cons_of_neg]
      · exact ih hn.2 h
      · simp [hx]

/-! ## The diff of a state against itself -/

theorem createChanges_self (l : List Dataset) : createChanges l l = [] := by
  unfold createChanges
  have h : l.filter (fun d => (findDataset d.dataset_id l).isNone) = [] := by
    rw [List.filter_eq_nil_iff]
    intro d hd hnone
    rw [Option.isNone_iff_eq_none, findDataset_eq_none_iff] at hnone
    exact hnone d hd rfl
  rw [h]
  rfl

theorem deleteChanges_self (l : List Dataset) : deleteChanges l l = [] := by
  unfold deleteChanges
  have h : l.filter (fun d => (findDataset d.dataset_id l).isNone) = [] := by
    rw [List.filter_eq_nil_iff]
    intro d hd hnone
    rw [Option.isNone_iff_eq_none, findDataset_eq_none_iff] at hnone
    exact hnone d hd rfl
  rw [h]
  rfl

theorem updateChanges_self {l : List Dataset}
    (hn : (l.map (fun x => x.dataset_id)).Nodup) : updateChanges l l = [] := by
  unfold updateChanges
  rw [List.filterMap_eq_nil_iff]
  intro d hd
  unfold updateChange
  rw [findDataset_self hn hd]
  simp

theorem missingApps_self (l : List Application) : missingApps l l = [] := by
  unfold missingApps
  rw [List.filter_eq_nil_iff]
  intro d hd
  simp only [Bool.not_eq_true', Bool.not_eq_false, List.any_eq_true]
  exact ⟨d, hd, appEq_refl d⟩

theorem extraApps_self (l : List Application) : extraApps l l = [] := by
  unfold extraApps
  rw [List.filter_eq_nil_iff]
  intro d hd
  simp only [Bool.not_eq_true', Bool.not_eq_false, List.any_eq_true]
  exact ⟨d, hd, appEq_refl d⟩

theorem containerChangesOn_self (S : ClusterState) (n : Nat) :
    containerChangesOn S S n = [] := by
  unfold containerChangesOn
  rw [missingApps_self, extraApps_self]
  rfl

theorem foldr_append_nil {α β : Type} (f : α → List β) (ns : List α)
    (h : ∀ n ∈ ns, f n = []) :
    ns.foldr (fun n acc => f n ++ acc) [] = [] := by
  induction ns with
  | nil => rfl
  | cons x t ih =>
    simp only [List.foldr_cons]
    rw [h x (List.mem_cons_self x t), ih (fun n hn => h n (List.mem_cons_of_mem x hn))]
    rfl

theorem containerChanges_self (S : ClusterState) :
    containerChanges S S = [] := by
  unfold containerChanges
  exact foldr_append_nil _ _ (fun n _ => containerChangesOn_self S n)

theorem datasetChanges_self (S : ClusterState)
    (hn : (S.datasets.map (fun x => x.dataset_id)).Nodup) :
    datasetChanges S S = [] := by
  unfold datasetChanges
  rw [createChanges_self, deleteChanges_self, updateChanges_self hn]
  rfl

/-- C3: for every valid cluster state S, `compute_changes(S, S)` — the
same state supplied as both the actual snapshot and the desired
configuration — returns the empty change list. -/
theorem compute_changes_self (S : ClusterState) (hv : validState S) :
    compute_changes S S = [] := by
  unfold compute_changes
  rw [datasetChanges_self S hv.1, containerChanges_self S]
  rfl

theorem compute_changes_self_witness :
    validState sampleState ∧ compute_changes sampleState sampleState = [] :=
  ⟨by decide, compute_changes_self sampleState (by decide)⟩

/-! ## The frame effect of a successful move -/

theorem updateOne_dataset_id (x : Dataset) (c : Change) :
    (updateOne x c).dataset_id = x.dataset_id := by
  cases c <;> simp only [updateOne] <;> first
    | rfl
    | (split <;> rfl)

theorem findDataset_map_idPreserving (f : Dataset → Dataset)
    (hf : ∀ x, (f x).dataset_id = x.dataset_id) (id : Nat)
    (l : List Dataset) :
    findDataset id (l.map f) = (findDataset id l).map f := by
  induction l with
  | nil => rfl
  | cons x t ih =>
    by_cases h : x.dataset_id = id
    · unfold findDataset
      rw [List.map_cons, List.find?_cons_of_pos, List.find?_cons_of_pos]
      · rfl
      · simp [h]
      · simp [hf, h]
    · unfold findDataset
      rw [List.map_cons, List.find?_cons_of_neg, List.find?_cons_of_neg]
      · exact ih
      · simp [h]
      · simp [hf, h]

/-- C1: for every dataset D with primary A in a valid state, after a
successful MoveDataset of D to node B the resulting actual record of D
equals the original with only the `primary` field replaced by B:
`dataset_id`, `maximum_size` and `metadata` are all unchanged. -/
theorem move_dataset_frame (s : ClusterState) (d : Dataset) (B : Nat)
    (hv : validState s) (hm : d ∈ s.datasets) :
    (applyMoveProtocol true true s d.dataset_id d.primary B).2 =
        Outcome.Succeeded ∧
      findDataset d.dataset_id
          (applyMoveProtocol true true s d.dataset_id d.primary B).1.datasets =
        some { d with primary := B } := by
  constructor
  · rfl
  · show findDataset d.dataset_id
      (s.datasets.map
        (fun x => updateOne x (Change.MoveDataset d.dataset_id d.primary B))) =
      some { d with primary := B }
    rw [findDataset_map_idPreserving _ (fun x => updateOne_dataset_id x _),
      findDataset_self hv.1 hm]
    simp [updateOne]

theorem move_dataset_frame_witness :
    (validState moveActual ∧
        (⟨1, some 5, 0, []⟩ : Dataset) ∈ moveActual.datasets) ∧
      (applyMoveProtocol true true moveActual 1 0 1).2 = Outcome.Succeeded ∧
      findDataset 1 (applyMoveProtocol true true moveActual 1 0 1).1.datasets =
        some ⟨1, some 5, 1, []⟩ :=
  ⟨⟨by decide, by decide⟩,
    move_dataset_frame moveActual ⟨1, some 5, 0, []⟩ 1 (by decide) (by decide)⟩

/-! ## Failure of the move protocol -/

/-- C2: when the backend transfer step or the attach step of a
MoveDataset fails, the actual state (and so the dataset's recorded
primary) is unchanged, the outcome is Failed — never Skipped — and the
next cycle's diff of the same desired configuration against the
resulting actual state still proposes the same MoveDataset. -/
theorem move_dataset_failure (t a : Bool) (s desired : ClusterState)
    (id fromN toN : Nat) (hfail : t = false ∨ a = false)
    (hmove : Change.MoveDataset id fromN toN ∈ compute_changes s desired) :
    (applyMoveProtocol t a s id fromN toN).1 = s ∧
      (∃ reason, (applyMoveProtocol t a s id fromN toN).2 =
        Outcome.Failed reason) ∧
      (∀ reason, (applyMoveProtocol t a s id fromN toN).2 ≠
        Outcome.Skipped reason) ∧
      Change.MoveDataset id fromN toN ∈
        compute_changes (applyMoveProtocol t a s id fromN toN).1 desired := by
  rcases hfail with h | h
  · subst h
    exact ⟨rfl, ⟨"backend transfer failed", rfl⟩,
      fun reason hr => Outcome.noConfusion hr, hmove⟩
  · subst h
    cases t with
    | false =>
      exact ⟨rfl, ⟨"backend transfer failed", rfl⟩,
        fun reason hr => Outcome.noConfusion hr, hmove⟩
    | true =>
      exact ⟨rfl, ⟨"backend attach failed", rfl⟩,
        fun reason hr => Outcome.noConfusion hr, hmove⟩

theorem move_dataset_failure_witness :
    (Change.MoveDataset 1 0 1 ∈ compute_changes moveActual moveDesired) ∧
      (applyMoveProtocol false true moveActual 1 0 1).1 = moveActual ∧
      (∃ reason, (applyMoveProtocol false true moveActual 1 0 1).2 =
        Outcome.Failed reason) ∧
      (∀ reason, (applyMoveProtocol false true moveActual 1 0 1).2 ≠
        Outcome.Skipped reason) ∧
      Change.MoveDataset 1 0 1 ∈
        compute_changes (applyMoveProtocol false true moveActual 1 0 1).1
          moveDesired :=
  ⟨by decide,
    move_dataset_failure false true moveActual moveDesired 1 0 1 (Or.inl rfl)
      (by decide)⟩

/-! ## Classifying the emitted changes -/

theorem isContainerChange_eq (c : Change) :
    isContainerChange c = !(isDatasetChange c) := by
  cases c <;> rfl

theorem updateChange_shape {l : List Dataset} {x : Dataset} {c : Change}
    (hx : updateChange l x = some c) :
    (∃ fr, c = Change.MoveDataset x.dataset_id fr x.primary) ∨
      c = Change.Resize x.dataset_id x.maximum_size ∨
      c = Change.MetadataUpdate x.dataset_id x.metadata := by
  unfold updateChange at hx
  split at hx
  · cases hx
  · split_ifs at hx <;> cases hx
    · exact Or.inl ⟨_, rfl⟩
    · exact Or.inr (Or.inl rfl)
    · exact Or.inr (Or.inr rfl)

theorem mem_datasetChanges_isDataset {a d : ClusterState} {c : Change}
    (h : c ∈ datasetChanges a d) : isDatasetChange c = true := by
  unfold datasetChanges createChanges deleteChanges updateChanges at h
  rcases List.mem_append.mp h with h | h
  · rcases List.mem_append.mp h with h | h
    · obtain ⟨x, -, rfl⟩ := List.mem_map.mp h
      rfl
    · obtain ⟨x, -, rfl⟩ := List.mem_map.mp h
      rfl
  · obtain ⟨x, -, hx⟩ := List.mem_filterMap.mp h
    rcases updateChange_shape hx with ⟨fr, rfl⟩ | rfl | rfl <;> rfl

theorem mem_foldr_append {α β : Type} (f : α → List β) (ns : List α) (c : β) :
    c ∈ ns.foldr (fun n acc => f n ++ acc) [] ↔ ∃ n ∈ ns, c ∈ f n := by
  induction ns with
  | nil => simp
  | cons x t ih => simp [List.foldr_cons, ih]

theorem mem_containerChanges_isContainer {a d : ClusterState} {c : Change}
    (h : c ∈ containerChanges a d) : isContainerChange c = true := by
  unfold containerChanges at h
  obtain ⟨n, -, hn⟩ := (mem_foldr_append _ _ _).mp h
  unfold containerChangesOn at hn
  rcases List.mem_append.mp hn with h2 | h2
  · obtain ⟨x, -, rfl⟩ := List.mem_map.mp h2
    rfl
  · obtain ⟨x, -, rfl⟩ := List.mem_map.mp h2
    rfl

/-- C5: in every change list returned by `compute_changes`, all dataset
changes (and so in particular the dataset changes for any dataset a
container depends on) precede all container changes: the list is exactly
its dataset changes followed by its container changes, and every change
is of exactly one of the two kinds. -/
theorem dataset_changes_precede_container_changes (a d : ClusterState) :
    compute_changes a d =
        (compute_changes a d).filter (fun c => isDatasetChange c) ++
          (compute_changes a d).filter (fun c => isContainerChange c) ∧
      ∀ c ∈ compute_changes a d, isContainerChange c = !(isDatasetChange c) := by
  constructor
  · have h1 : (datasetChanges a d).filter (fun c => isDatasetChange c) =
        datasetChanges a d :=
      List.filter_eq_self.mpr (fun c hc => mem_datasetChanges_isDataset hc)
    have h2 : (containerChanges a d).filter (fun c => isDatasetChange c) = [] :=
      List.filter_eq_nil_iff.mpr (fun c hc => by
        have h3 := mem_containerChanges_isContainer hc
        rw [isContainerChange_eq] at h3
        simp only [Bool.not_eq_true'] at h3
        simp [h3])
    have h3 : (datasetChanges a d).filter (fun c => isContainerChange c) = [] :=
      List.filter_eq_nil_iff.mpr (fun c hc => by
        have h4 := mem_datasetChanges_isDataset hc
        rw [isContainerChange_eq, h4]
        simp)
    have h4 : (containerChanges a d).filter (fun c => isContainerChange c) =
        containerChanges a d :=
      List.filter_eq_self.mpr (fun c hc => mem_containerChanges_isContainer hc)
    unfold compute_changes
    simp only [List.filter_append]
    rw [h1, h2, h3, h4]
    simp
  · intro c _
    exact isContainerChange_eq c

/-! ## Exactly one creation per missing desired dataset -/

theorem filter_eq_single {l : List Dataset} {d : Dataset} {p : Dataset → Bool}
    (hn : (l.map (fun x => x.dataset_id)).Nodup) (hm : d ∈ l)
    (hd : p d = true)
    (hothers : ∀ x ∈ l, p x = true → x.dataset_id = d.dataset_id) :
    l.filter p = [d] := by
  induction l with
  | nil => cases hm
  | cons x t ih =>
    simp only [List.map_cons, List.nodup_cons] at hn
    rcases List.mem_cons.mp hm with h | h
    · subst h
      rw [List.filter_cons_of_pos hd]
      have ht : t.filter p = [] := by
        rw [List.filter_eq_nil_iff]
        intro y hy hpy
        exact hn.1 (by
          rw [← hothers y (List.mem_cons_of_mem _ hy) hpy]
          exact List.mem_map_of_mem _ hy)
      rw [ht]
    · have hpx : p x = false := by
        rcases hpx : p x with _ | _
        · rfl
        · exact absurd (by
            rw [hothers x (List.mem_cons_self x t) hpx]
            exact List.mem_map_of_mem _ h) hn.1
      rw [List.filter_cons_of_neg (by simp [hpx])]
      exact ih hn.2 h
        (fun y hy hpy => hothers y (List.mem_cons_of_mem _ hy) hpy)

theorem isCreateOf_false_of_container {c : Change} {id : Nat}
    (h : isContainerChange c = true) : isCreateOf id c = false := by
  cases c <;> first | rfl | cases h

/-- C6: for every dataset present in the desired configuration but
absent from the actual snapshot, `compute_changes` emits exactly one
CreateDataset change, targeted at the dataset's desired primary node and
carrying its desired size (and metadata); and on the concrete scenario —
desired = two empty nodes plus D1(primary=node 0, size=1GB), actual
empty — the diff is exactly `[CreateDataset(D1, node=0, size=1GB)]`. -/
theorem create_dataset_change (a d : ClusterState) (dd : Dataset)
    (hvd : validState d) (hmem : dd ∈ d.datasets)
    (habsent : findDataset dd.dataset_id a.datasets = none) :
    (compute_changes a d).filter (fun c => isCreateOf dd.dataset_id c) =
        [Change.CreateDataset dd.dataset_id dd.primary dd.maximum_size
          dd.metadata] ∧
      compute_changes emptyState createScenarioDesired =
        [Change.CreateDataset 1 0 (some 1073741824) []] := by
  refine ⟨?_, by rfl⟩
  have hdel : (deleteChanges a.datasets d.datasets).filter
      (fun c => isCreateOf dd.dataset_id c) = [] := by
    rw [List.filter_eq_nil_iff]
    intro c hc
    unfold deleteChanges at hc
    obtain ⟨x, -, rfl⟩ := List.mem_map.mp hc
    simp [isCreateOf]
  have hupd : (updateChanges a.datasets d.datasets).filter
      (fun c => isCreateOf dd.dataset_id c) = [] := by
    rw [List.filter_eq_nil_iff]
    intro c hc
    unfold updateChanges at hc
    obtain ⟨x, -, hx⟩ := List.mem_filterMap.mp hc
    rcases updateChange_shape hx with ⟨fr, rfl⟩ | rfl | rfl <;> simp [isCreateOf]
  have hcont : (containerChanges a d).filter
      (fun c => isCreateOf dd.dataset_id c) = [] := by
    rw [List.filter_eq_nil_iff]
    intro c hc
    simp [isCreateOf_false_of_container (mem_containerChanges_isContainer hc)]
  have hcre : (createChanges a.datasets d.datasets).filter
      (fun c => isCreateOf dd.dataset_id c) =
      [Change.CreateDataset dd.dataset_id dd.primary dd.maximum_size
        dd.metadata] := by
    have hmk : d.datasets.filter
        (fun x => (x.dataset_id == dd.dataset_id) &&
          (findDataset x.dataset_id a.datasets).isNone) = [dd] :=
      filter_eq_single hvd.1 hmem (by simp [habsent])
        (fun x _ hx => by
          simp only [Bool.and_eq_true, beq_iff_eq] at hx
          exact hx.1)
    unfold createChanges
    rw [List.filter_map]
    have hcomp : ((fun c => isCreateOf dd.dataset_id c) ∘
        (fun x : Dataset => Change.CreateDataset x.dataset_id x.primary
          x.maximum_size x.metadata)) =
        (fun x : Dataset => x.dataset_id == dd.dataset_id) := rfl
    rw [hcomp, List.filter_filter, hmk]
    rfl
  unfold compute_changes datasetChanges
  simp only [List.filter_append]
  rw [hcre, hdel, hupd, hcont]
  rfl

theorem create_dataset_change_witness :
    (validState createScenarioDesired ∧
        (⟨1, some 1073741824, 0, []⟩ : Dataset) ∈
          createScenarioDesired.datasets ∧
        findDataset 1 emptyState.datasets = none) ∧
      (compute_changes emptyState createScenarioDesired).filter
          (fun c => isCreateOf 1 c) =
        [Change.CreateDataset 1 0 (some 1073741824) []] ∧
      compute_changes emptyState createScenarioDesired =
        [Change.CreateDataset 1 0 (some 1073741824) []] :=
  ⟨⟨by decide, by decide, by decide⟩,
    create_dataset_change emptyState createScenarioDesired
      ⟨1, some 1073741824, 0, []⟩ (by decide) (by decide) (by decide)⟩

/-! ## How applying a change batch acts on the dataset list -/

theorem datasets_setApps (n : Nat) (apps : List Application)
    (s : ClusterState) : (setApps n apps s).datasets = s.datasets := by
  unfold setApps
  split <;> rfl

theorem datasets_applyChange (s : ClusterState) (c : Change) :
    (applyChange s c).datasets = applyDatasetChange s.datasets c := by
  cases c <;> first
    | rfl
    | (show (setApps _ _ _).datasets = _; rw [datasets_setApps]; rfl)

theorem applyChanges_append (s : ClusterState) (l1 l2 : List Change) :
    applyChanges s (l1 ++ l2) = applyChanges (applyChanges s l1) l2 :=
  List.foldl_append _ _ _ _

theorem datasets_applyChanges (s : ClusterState) (cs : List Change) :
    (applyChanges s cs).datasets = cs.foldl applyDatasetChange s.datasets := by
  induction cs generalizing s with
  | nil => rfl
  | cons c t ih =>
    show (applyChanges (applyChange s c) t).datasets = _
    rw [ih, datasets_applyChange]
    rfl

theorem foldl_applyDatasetChange_containers (cs : List Change)
    (h : ∀ c ∈ cs, isContainerChange c = true) (ds : List Dataset) :
    cs.foldl applyDatasetChange ds = ds := by
  induction cs generalizing ds with
  | nil => rfl
  | cons c t ih =>
    have hc : applyDatasetChange ds c = ds := by
      rcases c <;> first
        | rfl
        | exact absurd (h _ (List.mem_cons_self _ _)) (by simp [isContainerChange])
    show t.foldl applyDatasetChange (applyDatasetChange ds c) = ds
    rw [hc]
    exact ih (fun c' hc' => h c' (List.mem_cons_of_mem _ hc')) ds

theorem foldl_createChanges (l ds : List Dataset) :
    (l.map (fun x => Change.CreateDataset x.dataset_id x.primary
        x.maximum_size x.metadata)).foldl applyDatasetChange ds = ds ++ l := by
  induction l generalizing ds with
  | nil => simp
  | cons x t ih =>
    show (t.map _).foldl applyDatasetChange
        (applyDatasetChange ds (Change.CreateDataset x.dataset_id x.primary
          x.maximum_size x.metadata)) = ds ++ x :: t
    rw [show applyDatasetChange ds (Change.CreateDataset x.dataset_id
        x.primary x.maximum_size x.metadata) = ds ++ [x] from rfl]
    rw [ih]
    simp

theorem foldl_filter_not {α β : Type} (p : α → β → Bool) (ids : List β)
    (l0 : List α) :
    ids.foldl (fun l i => l.filter (fun x => !(p x i))) l0 =
      l0.filter (fun x => !(ids.any (fun i => p x i))) := by
  induction ids generalizing l0 with
  | nil => simp
  | cons i t ih =>
    show t.foldl _ (l0.filter (fun x => !(p x i))) = _
    rw [ih, List.filter_filter]
    refine List.filter_congr (fun x _ => ?_)
    simp only [List.any_cons, Bool.not_or]
    rw [Bool.and_comm]

theorem foldl_deleteChanges (l ds : List Dataset) :
    (l.map (fun x => Change.DeleteDataset x.dataset_id)).foldl
        applyDatasetChange ds =
      ds.filter (fun y => !(l.any (fun x => y.dataset_id == x.dataset_id))) := by
  rw [List.foldl_map]
  exact foldl_filter_not (fun y x => y.dataset_id == x.dataset_id) l ds

theorem applyDatasetChange_of_update {al : List Dataset} {x : Dataset}
    {c : Change} (h : updateChange al x = some c) (ds : List Dataset) :
    applyDatasetChange ds c = ds.map (fun y => updateOne y c) := by
  rcases updateChange_shape h with ⟨fr, rfl⟩ | rfl | rfl <;> rfl

theorem foldl_applyDatasetChange_updates (us : List Change)
    (h : ∀ c ∈ us, ∀ ds : List Dataset,
      applyDatasetChange ds c = ds.map (fun y => updateOne y c))
    (ds : List Dataset) :
    us.foldl applyDatasetChange ds = ds.map (fun x => us.foldl updateOne x) := by
  induction us generalizing ds with
  | nil => simp
  | cons c t ih =>
    show t.foldl applyDatasetChange (applyDatasetChange ds c) = _
    rw [h c (List.mem_cons_self _ _) ds,
      ih (fun c' hc' => h c' (List.mem_cons_of_mem _ hc')), List.map_map]
    rfl

theorem foldl_updateOne_id (us : List Change) (x : Dataset) :
    ((us.foldl updateOne x).dataset_id) = x.dataset_id := by
  induction us generalizing x with
  | nil => rfl
  | cons c t ih =>
    show ((t.foldl updateOne (updateOne x c)).dataset_id) = _
    rw [ih, updateOne_dataset_id]

theorem updateOne_skip {al : List Dataset} {dd : Dataset} {c : Change}
    (h : updateChange al dd = some c) {y : Dataset}
    (hy : y.dataset_id ≠ dd.dataset_id) : updateOne y c = y := by
  rcases updateChange_shape h with ⟨fr, rfl⟩ | rfl | rfl <;>
    simp [updateOne, hy]

theorem foldl_updateOne_fixed (us : List Change) (x : Dataset)
    (h : ∀ c ∈ us, updateOne x c = x) : us.foldl updateOne x = x := by
  induction us with
  | nil => rfl
  | cons c t ih =>
    show t.foldl updateOne (updateOne x c) = x
    rw [h c (List.mem_cons_self _ _)]
    exact ih (fun c' hc' => h c' (List.mem_cons_of_mem _ hc'))

theorem fold_updates_on (al : List Dataset) (ddl : List Dataset)
    (hnd : (ddl.map (fun x => x.dataset_id)).Nodup) (dd : Dataset)
    (hdd : dd ∈ ddl) (da : Dataset) (hid : da.dataset_id = dd.dataset_id) :
    (ddl.filterMap (updateChange al)).foldl updateOne da =
      (match updateChange al dd with
        | none => da
        | some c => updateOne da c) := by
  induction ddl with
  | nil => cases hdd
  | cons x t ih =>
    simp only [List.map_cons, List.nodup_cons] at hnd
    rcases List.mem_cons.mp hdd with h | h
    · subst h
      have hrest : ∀ c ∈ t.filterMap (updateChange al),
          ∀ y : Dataset, y.dataset_id = dd.dataset_id → updateOne y c = y := by
        intro c hc y hy
        obtain ⟨z, hz, hcz⟩ := List.mem_filterMap.mp hc
        refine updateOne_skip hcz ?_
        rw [hy]
        intro he
        exact hnd.1 (by rw [he]; exact List.mem_map_of_mem _ hz)
      rcases hc0 : updateChange al dd with _ | c
      · show ((dd :: t).filterMap (updateChange al)).foldl updateOne da = da
        rw [List.filterMap_cons_none hc0]
        exact foldl_updateOne_fixed _ _ (fun c hc => hrest c hc da hid)
      · show ((dd :: t).filterMap (updateChange al)).foldl updateOne da =
          updateOne da c
        rw [List.filterMap_cons_some hc0]
        show (t.filterMap (updateChange al)).foldl updateOne
          (updateOne da c) = updateOne da c
        refine foldl_updateOne_fixed _ _ (fun c' hc' => ?_)
        refine hrest c' hc' _ ?_
        rcases updateChange_shape hc0 with ⟨fr, rfl⟩ | rfl | rfl <;>
          · rw [updateOne_dataset_id]
            exact hid
    · have hxskip : ∀ c, updateChange al x = some c → updateOne da c = da := by
        intro c hc
        refine updateOne_skip hc ?_
        rw [hid]
        intro he
        exact hnd.1 (by rw [← he]; exact List.mem_map_of_mem _ h)
      rcases hcx : updateChange al x with _ | c
      · rw [List.filterMap_cons_none hcx]
        exact ih hnd.2 h
      · rw [List.filterMap_cons_some hcx]
        show (t.filterMap (updateChange al)).foldl updateOne
          (updateOne da c) = _
        rw [hxskip c hcx]
        exact ih hnd.2 h

theorem nodup_id_unique {l : List Dataset}
    (hn : (l.map (fun x => x.dataset_id)).Nodup) {y z : Dataset}
    (hy : y ∈ l) (hz : z ∈ l) (hid : y.dataset_id = z.dataset_id) : y = z := by
  induction l with
  | nil => cases hy
  | cons x t ih =>
    simp only [List.map_cons, List.nodup_cons] at hn
    rcases List.mem_cons.mp hy with h1 | h1 <;>
      rcases List.mem_cons.mp hz with h2 | h2
    · rw [h1, h2]
    · refine absurd ?_ hn.1
      have he : x.dataset_id = z.dataset_id := by rw [← h1]; exact hid
      rw [he]
      exact List.mem_map_of_mem _ h2
    · refine absurd ?_ hn.1
      have he : x.dataset_id = y.dataset_id := by rw [← h2]; exact hid.symm
      rw [he]
      exact List.mem_map_of_mem _ h1
    · exact ih hn.2 h1 h2

theorem findDataset_eq_some_of_unique {l : List Dataset} {x : Dataset}
    {id : Nat} (hx : x ∈ l) (hid : x.dataset_id = id)
    (huniq : ∀ y ∈ l, y.dataset_id = id → y = x) :
    findDataset id l = some x := by
  induction l with
  | nil => cases hx
  | cons h t ih =>
    by_cases hh : h.dataset_id = id
    · have hhx : h = x := huniq h (List.mem_cons_self _ _) hh
      unfold findDataset
      rw [List.find?_cons_of_pos _ (by simp [hh])]
      rw [hhx]
    · have hxt : x ∈ t := by
        rcases List.mem_cons.mp hx with h1 | h1
        · exact absurd (h1 ▸ hid) hh
        · exact h1
      unfold findDataset
      rw [List.find?_cons_of_neg _ (by simp [hh])]
      exact ih hxt (fun y hy hyid => huniq y (List.mem_cons_of_mem _ hy) hyid)

/-- The full effect of the dataset changes of one diff on the dataset
list: the actual datasets, extended by the missing desired ones, with the
deleted ids removed, and each remaining dataset passed through its
in-both update (if any). -/
theorem final_datasets_eq (a d : ClusterState) :
    (applyChanges a (compute_changes a d)).datasets =
      ((a.datasets ++
          d.datasets.filter
            (fun x => (findDataset x.dataset_id a.datasets).isNone)).filter
        (fun y => !((a.datasets.filter
            (fun x => (findDataset x.dataset_id d.datasets).isNone)).any
          (fun x => y.dataset_id == x.dataset_id)))).map
        (fun x => (updateChanges a.datasets d.datasets).foldl updateOne x) := by
  rw [datasets_applyChanges]
  unfold compute_changes
  rw [List.foldl_append]
  rw [foldl_applyDatasetChange_containers _
    (fun c hc => mem_containerChanges_isContainer hc)]
  unfold datasetChanges
  rw [List.foldl_append, List.foldl_append]
  unfold createChanges deleteChanges
  rw [foldl_createChanges, foldl_deleteChanges]
  refine foldl_applyDatasetChange_updates _ (fun c hc ds => ?_) _
  obtain ⟨z, hz, hcz⟩ := List.mem_filterMap.mp (by
    simpa [updateChanges] using hc)
  exact applyDatasetChange_of_update hcz ds

/-! ## Deletion converges to absence from the actual listing -/

/-- C7: `DELETE /datasets/<id>` only records the desired-state change —
`delete_dataset` acts on the desired configuration alone, so the actual
state is untouched until convergence runs out of band, and a client can
observe completion only by polling the actual-state listing.  For a
dataset present in the actual state, the convergence diff against the
new desired configuration proposes DeleteDataset, and once the cycle's
changes are applied the dataset id is absent from the actual-state
listing. -/
theorem delete_dataset_removes (a d : ClusterState) (id : Nat)
    (hpresent : (findDataset id a.datasets).isSome = true) :
    Change.DeleteDataset id ∈ compute_changes a (delete_dataset d id) ∧
      findDataset id
          (applyChanges a (compute_changes a (delete_dataset d id))).datasets =
        none := by
  have hd2 : ∀ y ∈ (delete_dataset d id).datasets, y.dataset_id ≠ id := by
    intro y hy
    have hmf := List.mem_filter.mp (show y ∈ d.datasets.filter
      (fun x => !(x.dataset_id == id)) from hy)
    simpa using hmf.2
  have hnone2 : findDataset id (delete_dataset d id).datasets = none :=
    (findDataset_eq_none_iff _ _).mpr hd2
  obtain ⟨da, hda⟩ := Option.isSome_iff_exists.mp hpresent
  have hmemA : da ∈ a.datasets := mem_of_findDataset hda
  have hidA : da.dataset_id = id := id_of_findDataset hda
  constructor
  · have hmem : Change.DeleteDataset da.dataset_id ∈
        deleteChanges a.datasets (delete_dataset d id).datasets := by
      unfold deleteChanges
      refine List.mem_map.mpr ⟨da, ?_, rfl⟩
      refine List.mem_filter.mpr ⟨hmemA, ?_⟩
      rw [hidA, hnone2]
      rfl
    rw [hidA] at hmem
    unfold compute_changes datasetChanges
    exact List.mem_append.mpr (Or.inl (List.mem_append.mpr (Or.inl
      (List.mem_append.mpr (Or.inr hmem)))))
  · rw [final_datasets_eq]
    refine (findDataset_eq_none_iff _ _).mpr ?_
    intro y hy
    obtain ⟨z, hz, rfl⟩ := List.mem_map.mp hy
    rw [foldl_updateOne_id]
    have hz2 := List.mem_filter.mp hz
    rcases List.mem_append.mp hz2.1 with hzA | hzM
    · intro he
      have hzdel : z ∈ a.datasets.filter
          (fun x =>
            (findDataset x.dataset_id (delete_dataset d id).datasets).isNone) := by
        refine List.mem_filter.mpr ⟨hzA, ?_⟩
        rw [he, hnone2]
        rfl
      have hany : (a.datasets.filter
          (fun x =>
            (findDataset x.dataset_id (delete_dataset d id).datasets).isNone)).any
          (fun x => z.dataset_id == x.dataset_id) = true :=
        List.any_eq_true.mpr ⟨z, hzdel, by simp⟩
      have hkeep := hz2.2
      rw [hany] at hkeep
      cases hkeep
    · exact hd2 z (List.mem_filter.mp hzM).1

theorem delete_dataset_removes_witness :
    ((findDataset 1 moveActual.datasets).isSome = true) ∧
      Change.DeleteDataset 1 ∈
        compute_changes moveActual (delete_dataset moveDesired 1) ∧
      findDataset 1 (applyChanges moveActual
          (compute_changes moveActual (delete_dataset moveDesired 1))).datasets =
        none :=
  ⟨by decide, delete_dataset_removes moveActual moveDesired 1 (by decide)⟩

/-! ## How applying a change batch acts on the per-node applications -/

theorem find?_map_overwrite (l : List (Nat × List Application)) (n : Nat)
    (apps : List Application)
    (h : (l.find? (fun p => p.1 == n)).isSome = true) :
    (l.map (fun p => if p.1 == n then (n, apps) else p)).find?
      (fun p => p.1 == n) = some (n, apps) := by
  induction l with
  | nil => cases h
  | cons p t ih =>
    rcases hpe : (p.1 == n) with _ | _
    · rw [List.map_cons, if_neg (by simp [hpe])]
      rw [List.find?_cons_of_neg _ (by simp [hpe])]
      refine ih ?_
      rw [List.find?_cons_of_neg _ (by simp [hpe])] at h
      exact h
    · rw [List.map_cons, if_pos hpe]
      rw [List.find?_cons_of_pos _ (by simp)]

theorem find?_map_overwrite_ne (l : List (Nat × List Application))
    (m n : Nat) (apps : List Application) (h : (m == n) = false) :
    (l.map (fun p => if p.1 == m then (m, apps) else p)).find?
      (fun p => p.1 == n) = l.find? (fun p => p.1 == n) := by
  induction l with
  | nil => rfl
  | cons p t ih =>
    rcases hpe : (p.1 == m) with _ | _
    · rw [List.map_cons, if_neg (by simp [hpe])]
      rcases hpn : (p.1 == n) with _ | _
      · rw [List.find?_cons_of_neg _ (by simp [hpn]),
          List.find?_cons_of_neg _ (by simp [hpn])]
        exact ih
      · rw [List.find?_cons_of_pos _ (by exact hpn),
          List.find?_cons_of_pos _ (by exact hpn)]
    · rw [List.map_cons, if_pos hpe]
      have hpn : (p.1 == n) = false := by
        have hpm : p.1 = m := by simpa using hpe
        rw [hpm]
        exact h
      rw [List.find?_cons_of_neg _ (by simp [h]),
        List.find?_cons_of_neg _ (by simp [hpn])]
      exact ih

theorem find?_setApps_self (n : Nat) (apps : List Application)
    (s : ClusterState) :
    (setApps n apps s).nodeApps.find? (fun p => p.1 == n) = some (n, apps) := by
  unfold setApps
  split
  · next h => exact find?_map_overwrite _ _ _ h
  · next h =>
    show (s.nodeApps ++ [(n, apps)]).find? (fun p => p.1 == n) = _
    rw [List.find?_append, Option.not_isSome_iff_eq_none.mp h]
    simp

theorem find?_setApps_ne (m n : Nat) (h : (m == n) = false)
    (apps : List Application) (s : ClusterState) :
    (setApps m apps s).nodeApps.find? (fun p => p.1 == n) =
      s.nodeApps.find? (fun p => p.1 == n) := by
  unfold setApps
  split
  · exact find?_map_overwrite_ne _ _ _ _ h
  · show (s.nodeApps ++ [(m, apps)]).find? (fun p => p.1 == n) = _
    rw [List.find?_append]
    have h2 : List.find? (fun p => p.1 == n) [(m, apps)] = none := by
      simp [h]
    rw [h2, Option.or_none]

theorem appsOn_setApps_self (n : Nat) (apps : List Application)
    (s : ClusterState) : appsOn n (setApps n apps s) = apps := by
  unfold appsOn
  rw [find?_setApps_self]

theorem appsOn_setApps_ne (m n : Nat) (h : (m == n) = false)
    (apps : List Application) (s : ClusterState) :
    appsOn n (setApps m apps s) = appsOn n s := by
  unfold appsOn
  rw [find?_setApps_ne m n h]

theorem appsOn_eq_nil_of_not_mem {n : Nat} {s : ClusterState}
    (h : n ∉ nodeIds s) : appsOn n s = [] := by
  unfold appsOn
  have hf : s.nodeApps.find? (fun p => p.1 == n) = none := by
    rw [List.find?_eq_none]
    intro p hp hbe
    have hpn : p.1 = n := by simpa using hbe
    exact h (hpn ▸ List.mem_map_of_mem _ hp)
  rw [hf]

theorem appsOn_applyChange_untouched {c : Change} {n : Nat}
    (h : touchesNode c n = false) (s : ClusterState) :
    appsOn n (applyChange s c) = appsOn n s := by
  cases c <;> first
    | rfl
    | exact appsOn_setApps_ne _ _ (by simpa [touchesNode] using h) _ _

theorem appsOn_applyChanges_untouched {cs : List Change} {n : Nat}
    (h : ∀ c ∈ cs, touchesNode c n = false) (s : ClusterState) :
    appsOn n (applyChanges s cs) = appsOn n s := by
  induction cs generalizing s with
  | nil => rfl
  | cons c t ih =>
    show appsOn n (applyChanges (applyChange s c) t) = appsOn n s
    rw [ih (fun c' hc' => h c' (List.mem_cons_of_mem _ hc'))]
    exact appsOn_applyChange_untouched (h c (List.mem_cons_self _ _)) s

theorem datasetChange_touches_false {c : Change}
    (h : isDatasetChange c = true) (n : Nat) : touchesNode c n = false := by
  cases c <;> first | rfl | cases h

theorem appsOn_apply_creates (m : Nat) (apps : List Application)
    (s : ClusterState) :
    appsOn m (applyChanges s
        (apps.map (fun x => Change.CreateContainer m x))) =
      appsOn m s ++ apps.map activate := by
  induction apps generalizing s with
  | nil => simp [applyChanges]
  | cons x t ih =>
    show appsOn m (applyChanges
      (applyChange s (Change.CreateContainer m x)) (t.map _)) = _
    rw [ih]
    have h1 : appsOn m (applyChange s (Change.CreateContainer m x)) =
        appsOn m s ++ [activate x] := by
      show appsOn m (setApps m (appsOn m s ++ [activate x]) s) = _
      exact appsOn_setApps_self _ _ _
    rw [h1]
    simp

theorem appsOn_apply_stops (m : Nat) (stops : List Application)
    (s : ClusterState) :
    appsOn m (applyChanges s
        (stops.map (fun x => Change.StopContainer m x))) =
      (appsOn m s).filter (fun y => !(stops.any (fun x => appEq y x))) := by
  induction stops generalizing s with
  | nil => simp [applyChanges]
  | cons x t ih =>
    show appsOn m (applyChanges
      (applyChange s (Change.StopContainer m x)) (t.map _)) = _
    rw [ih]
    have h1 : appsOn m (applyChange s (Change.StopContainer m x)) =
        (appsOn m s).filter (fun a => !(appEq a x)) := by
      show appsOn m (setApps m ((appsOn m s).filter
        (fun a => !(appEq a x))) s) = _
      exact appsOn_setApps_self _ _ _
    rw [h1, List.filter_filter]
    refine List.filter_congr (fun y _ => ?_)
    simp only [List.any_cons, Bool.not_or]
    rw [Bool.and_comm]

theorem appsOn_apply_block (a d : ClusterState) (m : Nat) (s : ClusterState) :
    appsOn m (applyChanges s (containerChangesOn a d m)) =
      (appsOn m s ++ (missingApps (appsOn m a) (appsOn m d)).map
          activate).filter
        (fun y => !((extraApps (appsOn m a) (appsOn m d)).any
          (fun x => appEq y x))) := by
  unfold containerChangesOn
  rw [applyChanges_append, appsOn_apply_stops, appsOn_apply_creates]

theorem containerChangesOn_touches {a d : ClusterState} {m n : Nat}
    {c : Change} (hc : c ∈ containerChangesOn a d m)
    (h : (m == n) = false) : touchesNode c n = false := by
  unfold containerChangesOn at hc
  rcases List.mem_append.mp hc with h2 | h2
  · obtain ⟨x, -, rfl⟩ := List.mem_map.mp h2
    simpa [touchesNode] using h
  · obtain ⟨x, -, rfl⟩ := List.mem_map.mp h2
    simpa [touchesNode] using h

theorem appsOn_apply_blocks_mem (a d : ClusterState) (ns : List Nat)
    (hnd : ns.Nodup) (n : Nat) (hn : n ∈ ns) (s : ClusterState) :
    appsOn n (applyChanges s
        (ns.foldr (fun m acc => containerChangesOn a d m ++ acc) [])) =
      (appsOn n s ++ (missingApps (appsOn n a) (appsOn n d)).map
          activate).filter
        (fun y => !((extraApps (appsOn n a) (appsOn n d)).any
          (fun x => appEq y x))) := by
  induction ns generalizing s with
  | nil => cases hn
  | cons m t ih =>
    show appsOn n (applyChanges s (containerChangesOn a d m ++
      t.foldr (fun m acc => containerChangesOn a d m ++ acc) [])) = _
    rw [applyChanges_append]
    rcases List.mem_cons.mp hn with he | he
    · subst he
      have hnt : n ∉ t := (List.nodup_cons.mp hnd).1
      have hrest : ∀ c ∈ t.foldr
          (fun m acc => containerChangesOn a d m ++ acc) [],
          touchesNode c n = false := by
        intro c hc
        obtain ⟨mm, hmm, hcm⟩ := (mem_foldr_append _ _ _).mp hc
        exact containerChangesOn_touches hcm
          (beq_eq_false_iff_ne.mpr (fun he2 => hnt (he2 ▸ hmm)))
      rw [appsOn_applyChanges_untouched hrest]
      exact appsOn_apply_block a d n s
    · have hmn : (m == n) = false := by
        refine beq_eq_false_iff_ne.mpr (fun he2 => ?_)
        exact (List.nodup_cons.mp hnd).1 (he2 ▸ he)
      rw [ih (List.nodup_cons.mp hnd).2 he]
      rw [appsOn_applyChanges_untouched
        (fun c hc => containerChangesOn_touches hc hmn)]

theorem appsOn_apply_blocks_not_mem (a d : ClusterState) (ns : List Nat)
    (n : Nat) (hn : n ∉ ns) (s : ClusterState) :
    appsOn n (applyChanges s
        (ns.foldr (fun m acc => containerChangesOn a d m ++ acc) [])) =
      appsOn n s :=
  appsOn_applyChanges_untouched (fun c hc => by
    obtain ⟨mm, hmm, hcm⟩ := (mem_foldr_append _ _ _).mp hc
    exact containerChangesOn_touches hcm
      (beq_eq_false_iff_ne.mpr (fun he => hn (he ▸ hmm)))) s

theorem nodesOf_nodup {a d : ClusterState} (hva : validState a)
    (hvd : validState d) : (nodesOf a d).Nodup := by
  unfold nodesOf
  refine List.Nodup.append hvd.2 (List.Nodup.filter _ hva.2) ?_
  rw [List.disjoint_left]
  intro n hn1 hn2
  have h2 := List.mem_filter.mp hn2
  have h3 : n ∉ nodeIds d := by simpa using h2.2
  exact h3 hn1

theorem not_mem_nodesOf {a d : ClusterState} {n : Nat}
    (h : n ∉ nodesOf a d) : n ∉ nodeIds a ∧ n ∉ nodeIds d := by
  unfold nodesOf at h
  constructor
  · intro hna
    by_cases hnd : n ∈ nodeIds d
    · exact h (List.mem_append.mpr (Or.inl hnd))
    · exact h (List.mem_append.mpr (Or.inr
        (List.mem_filter.mpr ⟨hna, by simpa using hnd⟩)))
  · intro hnd
    exact h (List.mem_append.mpr (Or.inl hnd))

/-! ## The container part of the rediff after convergence is empty -/

theorem missingApps_after (A D : List Application) :
    missingApps ((A ++ (missingApps A D).map activate).filter
      (fun y => !((extraApps A D).any (fun x => appEq y x)))) D = [] := by
  unfold missingApps
  rw [List.filter_eq_nil_iff]
  intro dd hdd
  simp only [Bool.not_eq_true', Bool.not_eq_false]
  rw [List.any_eq_true]
  have hkeep : ∀ y : Application, appEq y dd = true →
      (extraApps A D).any (fun x => appEq y x) = false := by
    intro y hy
    rw [List.any_eq_false]
    intro e heE
    have he2 := List.mem_filter.mp heE
    rcases hye : appEq y e with _ | _
    · simp
    · exfalso
      have h3 : appEq e dd = true := appEq_trans (appEq_symm hye) hy
      have h4 : D.any (fun x => appEq e x) = true :=
        List.any_eq_true.mpr ⟨dd, hdd, h3⟩
      have h5 := he2.2
      rw [h4] at h5
      cases h5
  by_cases hx : A.any (fun x => appEq x dd) = true
  · obtain ⟨x, hxA, hxe⟩ := List.any_eq_true.mp hx
    refine ⟨x, ?_, hxe⟩
    exact List.mem_filter.mpr ⟨List.mem_append.mpr (Or.inl hxA),
      by rw [hkeep x hxe]; rfl⟩
  · have hdM : dd ∈ (D.filter (fun x => !(A.any (fun y => appEq y x)))) := by
      refine List.mem_filter.mpr ⟨hdd, ?_⟩
      have h6 : A.any (fun y => appEq y dd) = false := eq_false_of_ne_true hx
      rw [h6]
      rfl
    have hadd : appEq (activate dd) dd = true := by
      rw [appEq_activate_left]
      exact appEq_refl dd
    refine ⟨activate dd, ?_, hadd⟩
    refine List.mem_filter.mpr ⟨List.mem_append.mpr (Or.inr ?_),
      by rw [hkeep (activate dd) hadd]; rfl⟩
    exact List.mem_map_of_mem _ hdM

theorem extraApps_after (A D : List Application) :
    extraApps ((A ++ (missingApps A D).map activate).filter
      (fun y => !((extraApps A D).any (fun x => appEq y x)))) D = [] := by
  unfold extraApps
  rw [List.filter_eq_nil_iff]
  intro y hyF
  simp only [Bool.not_eq_true', Bool.not_eq_false]
  have hy2 := List.mem_filter.mp hyF
  rcases List.mem_append.mp hy2.1 with hyA | hyM
  · rcases hD : D.any (fun x => appEq y x) with _ | _
    · exfalso
      have hyE : y ∈ A.filter (fun z => !(D.any (fun x => appEq z x))) :=
        List.mem_filter.mpr ⟨hyA, by rw [hD]; rfl⟩
      have h4 : (A.filter (fun z => !(D.any (fun x => appEq z x)))).any
          (fun x => appEq y x) = true :=
        List.any_eq_true.mpr ⟨y, hyE, appEq_refl y⟩
      have h5 := hy2.2
      rw [h4] at h5
      cases h5
    · rfl
  · obtain ⟨dd, hddM, rfl⟩ := List.mem_map.mp hyM
    have hddD : dd ∈ D := (List.mem_filter.mp hddM).1
    refine List.any_eq_true.mpr ⟨dd, hddD, ?_⟩
    rw [appEq_activate_left]
    exact appEq_refl dd

theorem containerChangesOn_final_nil (a d : ClusterState)
    (hva : validState a) (hvd : validState d) (n : Nat) :
    containerChangesOn (applyChanges a (compute_changes a d)) d n = [] := by
  have hsplit : applyChanges a (compute_changes a d) =
      applyChanges (applyChanges a (datasetChanges a d))
        (containerChanges a d) := by
    rw [show compute_changes a d =
      datasetChanges a d ++ containerChanges a d from rfl, applyChanges_append]
  have hds : appsOn n (applyChanges a (datasetChanges a d)) = appsOn n a :=
    appsOn_applyChanges_untouched
      (fun c hc => datasetChange_touches_false
        (mem_datasetChanges_isDataset hc) n) a
  by_cases hmem : n ∈ nodesOf a d
  · have h2 : appsOn n (applyChanges a (compute_changes a d)) =
        (appsOn n a ++ (missingApps (appsOn n a) (appsOn n d)).map
            activate).filter
          (fun y => !((extraApps (appsOn n a) (appsOn n d)).any
            (fun x => appEq y x))) := by
      rw [hsplit]
      rw [show containerChanges a d = (nodesOf a d).foldr
        (fun m acc => containerChangesOn a d m ++ acc) [] from rfl]
      rw [appsOn_apply_blocks_mem a d _ (nodesOf_nodup hva hvd) n hmem, hds]
    unfold containerChangesOn
    rw [h2, missingApps_after, extraApps_after]
    rfl
  · have h2 : appsOn n (applyChanges a (compute_changes a d)) = appsOn n a := by
      rw [hsplit]
      rw [show containerChanges a d = (nodesOf a d).foldr
        (fun m acc => containerChangesOn a d m ++ acc) [] from rfl]
      rw [appsOn_apply_blocks_not_mem a d _ n hmem, hds]
    obtain ⟨hna, hnd⟩ := not_mem_nodesOf hmem
    unfold containerChangesOn
    rw [h2, appsOn_eq_nil_of_not_mem hna, appsOn_eq_nil_of_not_mem hnd]
    rfl

theorem containerChanges_final_nil (a d : ClusterState)
    (hva : validState a) (hvd : validState d) :
    containerChanges (applyChanges a (compute_changes a d)) d = [] := by
  show (nodesOf (applyChanges a (compute_changes a d)) d).foldr
    (fun n acc =>
      containerChangesOn (applyChanges a (compute_changes a d)) d n ++ acc)
    [] = []
  exact foldr_append_nil _ _
    (fun n _ => containerChangesOn_final_nil a d hva hvd n)

/-! ## The dataset part of the rediff after convergence is empty -/

theorem keep_of_some {al dl : List Dataset} {z : Dataset}
    (h : (findDataset z.dataset_id dl).isSome = true) :
    (!((al.filter (fun x => (findDataset x.dataset_id dl).isNone)).any
      (fun x => z.dataset_id == x.dataset_id))) = true := by
  have h2 : (al.filter (fun x => (findDataset x.dataset_id dl).isNone)).any
      (fun x => z.dataset_id == x.dataset_id) = false := by
    rw [List.any_eq_false]
    intro x hx hbe
    have h3 := (List.mem_filter.mp hx).2
    have hz : z.dataset_id = x.dataset_id := by simpa using hbe
    rw [← hz, Option.isNone_iff_eq_none] at h3
    rw [h3] at h
    cases h
  rw [h2]
  rfl

theorem updated_matches {al : List Dataset} {dd da : Dataset}
    (hfind : findDataset dd.dataset_id al = some da)
    (h1 : atMostOneFieldDiff da dd) :
    (match updateChange al dd with
      | none => da
      | some c => updateOne da c).primary = dd.primary ∧
    (match updateChange al dd with
      | none => da
      | some c => updateOne da c).maximum_size = dd.maximum_size ∧
    (match updateChange al dd with
      | none => da
      | some c => updateOne da c).metadata = dd.metadata := by
  have hid : da.dataset_id = dd.dataset_id := id_of_findDataset hfind
  unfold updateChange
  rw [hfind]
  by_cases hp : da.primary = dd.primary
  · by_cases hs : da.maximum_size = dd.maximum_size
    · by_cases hm : da.metadata = dd.metadata
      · simp [hp, hs, hm]
      · simp [hp, hs, hm, updateOne, hid]
    · have hm := h1.2 hs
      simp [hp, hs, hm, updateOne, hid]
  · have hsm := h1.1 hp
    simp [hp, updateOne, hid, hsm.1, hsm.2]

theorem final_present (a d : ClusterState) (dd : Dataset)
    (hdd : dd ∈ d.datasets) :
    (findDataset dd.dataset_id
      (applyChanges a (compute_changes a d)).datasets).isSome = true := by
  rw [final_datasets_eq]
  refine (findDataset_isSome_iff _ _).mpr ?_
  by_cases hfa : (findDataset dd.dataset_id a.datasets).isSome = true
  · obtain ⟨da, hda⟩ := Option.isSome_iff_exists.mp hfa
    have hdaA : da ∈ a.datasets := mem_of_findDataset hda
    have hdaid : da.dataset_id = dd.dataset_id := id_of_findDataset hda
    have hsome_d : (findDataset da.dataset_id d.datasets).isSome = true := by
      rw [hdaid]
      exact (findDataset_isSome_iff _ _).mpr ⟨dd, hdd, rfl⟩
    have hmemL : da ∈ (a.datasets ++ d.datasets.filter
        (fun x => (findDataset x.dataset_id a.datasets).isNone)).filter
        (fun y => !((a.datasets.filter
            (fun x => (findDataset x.dataset_id d.datasets).isNone)).any
          (fun x => y.dataset_id == x.dataset_id))) :=
      List.mem_filter.mpr ⟨List.mem_append.mpr (Or.inl hdaA),
        keep_of_some hsome_d⟩
    refine ⟨(updateChanges a.datasets d.datasets).foldl updateOne da,
      List.mem_map_of_mem _ hmemL, ?_⟩
    rw [foldl_updateOne_id]
    exact hdaid
  · have hfa2 : findDataset dd.dataset_id a.datasets = none :=
      Option.not_isSome_iff_eq_none.mp hfa
    have hddM : dd ∈ d.datasets.filter
        (fun x => (findDataset x.dataset_id a.datasets).isNone) :=
      List.mem_filter.mpr ⟨hdd, by rw [hfa2]; rfl⟩
    have hsome_d : (findDataset dd.dataset_id d.datasets).isSome = true :=
      (findDataset_isSome_iff _ _).mpr ⟨dd, hdd, rfl⟩
    have hmemL : dd ∈ (a.datasets ++ d.datasets.filter
        (fun x => (findDataset x.dataset_id a.datasets).isNone)).filter
        (fun y => !((a.datasets.filter
            (fun x => (findDataset x.dataset_id d.datasets).isNone)).any
          (fun x => y.dataset_id == x.dataset_id))) :=
      List.mem_filter.mpr ⟨List.mem_append.mpr (Or.inr hddM),
        keep_of_some hsome_d⟩
    refine ⟨(updateChanges a.datasets d.datasets).foldl updateOne dd,
      List.mem_map_of_mem _ hmemL, ?_⟩
    rw [foldl_updateOne_id]

theorem final_in_desired (a d : ClusterState) (y : Dataset)
    (hy : y ∈ (applyChanges a (compute_changes a d)).datasets) :
    (findDataset y.dataset_id d.datasets).isSome = true := by
  rw [final_datasets_eq] at hy
  obtain ⟨z, hzL, rfl⟩ := List.mem_map.mp hy
  rw [foldl_updateOne_id]
  have hz2 := List.mem_filter.mp hzL
  rcases List.mem_append.mp hz2.1 with hzA | hzM
  · by_contra hns
    have hnone : findDataset z.dataset_id d.datasets = none :=
      Option.not_isSome_iff_eq_none.mp hns
    have hzdel : z ∈ a.datasets.filter
        (fun x => (findDataset x.dataset_id d.datasets).isNone) :=
      List.mem_filter.mpr ⟨hzA, by rw [hnone]; rfl⟩
    have hany : (a.datasets.filter
        (fun x => (findDataset x.dataset_id d.datasets).isNone)).any
        (fun x => z.dataset_id == x.dataset_id) = true :=
      List.any_eq_true.mpr ⟨z, hzdel, by simp⟩
    have h5 := hz2.2
    rw [hany] at h5
    cases h5
  · have hzd : z ∈ d.datasets := (List.mem_filter.mp hzM).1
    exact (findDataset_isSome_iff _ _).mpr ⟨z, hzd, rfl⟩

theorem final_matches (a d : ClusterState) (hva : validState a)
    (hvd : validState d)
    (hone : ∀ dd ∈ d.datasets, ∀ da,
      findDataset dd.dataset_id a.datasets = some da →
        atMostOneFieldDiff da dd)
    (dd : Dataset) (hdd : dd ∈ d.datasets) (y : Dataset)
    (hy : findDataset dd.dataset_id
      (applyChanges a (compute_changes a d)).datasets = some y) :
    y.primary = dd.primary ∧ y.maximum_size = dd.maximum_size ∧
      y.metadata = dd.metadata := by
  rw [final_datasets_eq] at hy
  rw [findDataset_map_idPreserving _ (fun z => foldl_updateOne_id _ z)] at hy
  rcases hfL : findDataset dd.dataset_id
      ((a.datasets ++ d.datasets.filter
        (fun x => (findDataset x.dataset_id a.datasets).isNone)).filter
        (fun y => !((a.datasets.filter
            (fun x => (findDataset x.dataset_id d.datasets).isNone)).any
          (fun x => y.dataset_id == x.dataset_id)))) with _ | z0
  · rw [hfL] at hy
    cases hy
  · rw [hfL] at hy
    simp only [Option.map_some'] at hy
    have hz0L := mem_of_findDataset hfL
    have hz0id : z0.dataset_id = dd.dataset_id := id_of_findDataset hfL
    by_cases hfa : (findDataset dd.dataset_id a.datasets).isSome = true
    · obtain ⟨da, hda⟩ := Option.isSome_iff_exists.mp hfa
      have hdaA : da ∈ a.datasets := mem_of_findDataset hda
      have hdaid : da.dataset_id = dd.dataset_id := id_of_findDataset hda
      have hz0eq : z0 = da := by
        have hz0' := (List.mem_filter.mp hz0L).1
        rcases List.mem_append.mp hz0' with hz0A | hz0M
        · exact nodup_id_unique hva.1 hz0A hdaA (by rw [hz0id, hdaid])
        · exfalso
          have h6 := (List.mem_filter.mp hz0M).2
          rw [hz0id, hda] at h6
          cases h6
      have hfold : (updateChanges a.datasets d.datasets).foldl updateOne da =
          (match updateChange a.datasets dd with
            | none => da
            | some c => updateOne da c) :=
        fold_updates_on a.datasets d.datasets hvd.1 dd hdd da hdaid
      obtain rfl : (updateChanges a.datasets d.datasets).foldl updateOne z0 =
          y := by injection hy
      rw [hz0eq, hfold]
      exact updated_matches hda (hone dd hdd da hda)
    · have hfa2 : findDataset dd.dataset_id a.datasets = none :=
        Option.not_isSome_iff_eq_none.mp hfa
      have hz0eq : z0 = dd := by
        have hz0' := (List.mem_filter.mp hz0L).1
        rcases List.mem_append.mp hz0' with hz0A | hz0M
        · exact absurd hz0id ((findDataset_eq_none_iff _ _).mp hfa2 z0 hz0A)
        · exact nodup_id_unique hvd.1 (List.mem_filter.mp hz0M).1 hdd hz0id
      have hnone : updateChange a.datasets dd = none := by
        unfold updateChange
        rw [hfa2]
      have hfold : (updateChanges a.datasets d.datasets).foldl updateOne dd =
          (match updateChange a.datasets dd with
            | none => dd
            | some c => updateOne dd c) :=
        fold_updates_on a.datasets d.datasets hvd.1 dd hdd dd rfl
      obtain rfl : (updateChanges a.datasets d.datasets).foldl updateOne z0 =
          y := by injection hy
      rw [hz0eq, hfold, hnone]
      exact ⟨rfl, rfl, rfl⟩

theorem datasetChanges_final_nil (a d : ClusterState)
    (hva : validState a) (hvd : validState d)
    (hone : ∀ dd ∈ d.datasets, ∀ da,
      findDataset dd.dataset_id a.datasets = some da →
        atMostOneFieldDiff da dd) :
    datasetChanges (applyChanges a (compute_changes a d)) d = [] := by
  have hcre : createChanges
      (applyChanges a (compute_changes a d)).datasets d.datasets = [] := by
    unfold createChanges
    have hfil : d.datasets.filter (fun x => (findDataset x.dataset_id
        (applyChanges a (compute_changes a d)).datasets).isNone) = [] := by
      rw [List.filter_eq_nil_iff]
      intro dd hdd hno
      rw [Option.isNone_iff_eq_none] at hno
      have := final_present a d dd hdd
      rw [hno] at this
      cases this
    rw [hfil]
    rfl
  have hdel : deleteChanges
      (applyChanges a (compute_changes a d)).datasets d.datasets = [] := by
    unfold deleteChanges
    have hfil : (applyChanges a (compute_changes a d)).datasets.filter
        (fun x => (findDataset x.dataset_id d.datasets).isNone) = [] := by
      rw [List.filter_eq_nil_iff]
      intro y hy hno
      rw [Option.isNone_iff_eq_none] at hno
      have := final_in_desired a d y hy
      rw [hno] at this
      cases this
    rw [hfil]
    rfl
  have hupd : updateChanges
      (applyChanges a (compute_changes a d)).datasets d.datasets = [] := by
    unfold updateChanges
    rw [List.filterMap_eq_nil_iff]
    intro dd hdd
    unfold updateChange
    rcases hf : findDataset dd.dataset_id
        (applyChanges a (compute_changes a d)).datasets with _ | y
    · rfl
    · have hm := final_matches a d hva hvd hone dd hdd y hf
      simp [hm.1, hm.2.1, hm.2.2]
  show createChanges (applyChanges a (compute_changes a d)).datasets
      d.datasets ++
    deleteChanges (applyChanges a (compute_changes a d)).datasets
      d.datasets ++
    updateChanges (applyChanges a (compute_changes a d)).datasets
      d.datasets = []
  rw [hcre, hdel, hupd]
  rfl

/-- C4 (amended): if for every dataset present in both states at most one
of the attributes primary, maximum_size, metadata differs between actual
and desired, then applying every change of
`compute_changes(actual, desired)` successfully and recomputing the diff
against the resulting actual state yields the empty change list.  (The
unamended claim fails when a move coincides with a size or metadata
difference: the move — per C1 — changes only the primary, so the rediff
still emits a resize or metadata update; see the counterexample.) -/
theorem compute_changes_after_apply (a d : ClusterState)
    (hva : validState a) (hvd : validState d)
    (hone : ∀ dd ∈ d.datasets, ∀ da,
      findDataset dd.dataset_id a.datasets = some da →
        atMostOneFieldDiff da dd) :
    compute_changes (applyChanges a (compute_changes a d)) d = [] := by
  show datasetChanges (applyChanges a (compute_changes a d)) d ++
    containerChanges (applyChanges a (compute_changes a d)) d = []
  rw [datasetChanges_final_nil a d hva hvd hone,
    containerChanges_final_nil a d hva hvd]
  rfl

theorem compute_changes_after_apply_witness :
    (validState moveActual ∧ validState moveDesired ∧
      (∀ dd ∈ moveDesired.datasets, ∀ da,
        findDataset dd.dataset_id moveActual.datasets = some da →
          atMostOneFieldDiff da dd)) ∧
    compute_changes (applyChanges moveActual
      (compute_changes moveActual moveDesired)) moveDesired = [] :=
  ⟨⟨by decide, by decide, by decide⟩,
    compute_changes_after_apply moveActual moveDesired (by decide) (by decide)
      (by decide)⟩

/-- C4 counterexample: with actual = dataset 1 (primary 0, size 1) and
desired = dataset 1 (primary 1, size 2), the diff is exactly one
MoveDataset; applying it successfully changes only the primary, so the
rediff is [Resize 1 (some 2)], not the empty list. -/
theorem compute_changes_after_apply_counterexample :
    compute_changes bothDiffActual bothDiffDesired =
        [Change.MoveDataset 1 0 1] ∧
      compute_changes (applyChanges bothDiffActual
          (compute_changes bothDiffActual bothDiffDesired)) bothDiffDesired =
        [Change.Resize 1 (some 2)] ∧
      compute_changes (applyChanges bothDiffActual
          (compute_changes bothDiffActual bothDiffDesired)) bothDiffDesired ≠
        [] := by
  refine ⟨by decide, by decide, by decide⟩

/-! ## The ports deployment scenario -/

/-- C8: for every application whose port mapping configuration lists the
pair (internal_port i, external_port e), deployed to one node of a fresh
two-node cluster (the ports acceptance test's configuration shape),
convergence yields exactly one unit for that application on the target
node; that unit is active, equal in name, image, ports and volumes to
the configured application (the diff engine's value equality), and its
PortMap set is {(i, e)}, while the node to which no application was
assigned runs no units.  The second half is the test's concrete mongodb
scenario. -/
theorem deployment_with_ports (app : Application) (i e : Nat)
    (hports : app.ports = [⟨i, e⟩]) (n1 n2 : Nat) (hne : n1 ≠ n2) :
    (appsOn n1 (applyChanges ⟨[], [(n1, []), (n2, [])]⟩
        (compute_changes ⟨[], [(n1, []), (n2, [])]⟩
          ⟨[], [(n1, [app]), (n2, [])]⟩)) = [activate app] ∧
      appEq (activate app) app = true ∧
      (activate app).ports = [⟨i, e⟩] ∧
      (activate app).activation_state = ActivationState.active ∧
      appsOn n2 (applyChanges ⟨[], [(n1, []), (n2, [])]⟩
        (compute_changes ⟨[], [(n1, []), (n2, [])]⟩
          ⟨[], [(n1, [app]), (n2, [])]⟩)) = []) ∧
    (appsOn 0 (applyChanges portsActual
        (compute_changes portsActual portsDesired)) =
      [⟨"mongodb-example-application", "clusterhq/mongodb",
        [⟨27017, 27018⟩],
        [⟨"/some_path", "/data/db"⟩, ⟨"/some_path", "/data/log"⟩],
        ActivationState.active⟩] ∧
      appsOn 1 (applyChanges portsActual
        (compute_changes portsActual portsDesired)) = []) := by
  have hbe12 : (n1 == n2) = false := beq_eq_false_iff_ne.mpr hne
  have ha1 : appsOn n1 (⟨[], [(n1, []), (n2, [])]⟩ : ClusterState) = [] := by
    unfold appsOn
    rw [List.find?_cons_of_pos _ (by simp)]
  have hd1 : appsOn n1 (⟨[], [(n1, [app]), (n2, [])]⟩ : ClusterState) =
      [app] := by
    unfold appsOn
    rw [List.find?_cons_of_pos _ (by simp)]
  have ha2 : appsOn n2 (⟨[], [(n1, []), (n2, [])]⟩ : ClusterState) = [] := by
    unfold appsOn
    rw [List.find?_cons_of_neg _ (by simp [hbe12]),
      List.find?_cons_of_pos _ (by simp)]
  have hd2 : appsOn n2 (⟨[], [(n1, [app]), (n2, [])]⟩ : ClusterState) =
      [] := by
    unfold appsOn
    rw [List.find?_cons_of_neg _ (by simp [hbe12]),
      List.find?_cons_of_pos _ (by simp)]
  have hblock1 : containerChangesOn ⟨[], [(n1, []), (n2, [])]⟩
      ⟨[], [(n1, [app]), (n2, [])]⟩ n1 = [Change.CreateContainer n1 app] := by
    unfold containerChangesOn
    rw [ha1, hd1]
    rfl
  have hblock2 : containerChangesOn ⟨[], [(n1, []), (n2, [])]⟩
      ⟨[], [(n1, [app]), (n2, [])]⟩ n2 = [] := by
    unfold containerChangesOn
    rw [ha2, hd2]
    rfl
  have hnodes : nodesOf (⟨[], [(n1, []), (n2, [])]⟩ : ClusterState)
      (⟨[], [(n1, [app]), (n2, [])]⟩ : ClusterState) = [n1, n2] := by
    show [n1, n2] ++ [n1, n2].filter (fun n => decide (n ∉ [n1, n2])) =
      [n1, n2]
    have hf : [n1, n2].filter (fun n => decide (n ∉ [n1, n2])) = [] := by
      simp
    rw [hf]
    rfl
  have hcont : containerChanges ⟨[], [(n1, []), (n2, [])]⟩
      ⟨[], [(n1, [app]), (n2, [])]⟩ = [Change.CreateContainer n1 app] := by
    show (nodesOf (⟨[], [(n1, []), (n2, [])]⟩ : ClusterState)
        (⟨[], [(n1, [app]), (n2, [])]⟩ : ClusterState)).foldr
      (fun n acc => containerChangesOn ⟨[], [(n1, []), (n2, [])]⟩
        ⟨[], [(n1, [app]), (n2, [])]⟩ n ++ acc) [] = _
    rw [hnodes]
    show containerChangesOn _ _ n1 ++ (containerChangesOn _ _ n2 ++ []) = _
    rw [hblock1, hblock2]
    rfl
  have hcc : compute_changes ⟨[], [(n1, []), (n2, [])]⟩
      ⟨[], [(n1, [app]), (n2, [])]⟩ = [Change.CreateContainer n1 app] := by
    show datasetChanges ⟨[], [(n1, []), (n2, [])]⟩
        ⟨[], [(n1, [app]), (n2, [])]⟩ ++
      containerChanges ⟨[], [(n1, []), (n2, [])]⟩
        ⟨[], [(n1, [app]), (n2, [])]⟩ = _
    rw [hcont]
    rfl
  refine ⟨⟨?_, ?_, ?_, ?_, ?_⟩, ?_, ?_⟩
  · rw [hcc]
    show appsOn n1 (setApps n1
      (appsOn n1 (⟨[], [(n1, []), (n2, [])]⟩ : ClusterState) ++
        [activate app]) ⟨[], [(n1, []), (n2, [])]⟩) = [activate app]
    rw [appsOn_setApps_self, ha1]
    rfl
  · rw [appEq_activate_left]
    exact appEq_refl app
  · exact hports
  · rfl
  · rw [hcc]
    show appsOn n2 (setApps n1
      (appsOn n1 (⟨[], [(n1, []), (n2, [])]⟩ : ClusterState) ++
        [activate app]) ⟨[], [(n1, []), (n2, [])]⟩) = []
    rw [appsOn_setApps_ne n1 n2 hbe12, ha2]
  · rfl
  · rfl

theorem deployment_with_ports_witness :
    (mongoApp.ports = [⟨27017, 27018⟩] ∧ (0 : Nat) ≠ 1) ∧
      ((appsOn 0 (applyChanges ⟨[], [(0, []), (1, [])]⟩
          (compute_changes ⟨[], [(0, []), (1, [])]⟩
            ⟨[], [(0, [mongoApp]), (1, [])]⟩)) = [activate mongoApp] ∧
        appEq (activate mongoApp) mongoApp = true ∧
        (activate mongoApp).ports = [⟨27017, 27018⟩] ∧
        (activate mongoApp).activation_state = ActivationState.active ∧
        appsOn 1 (applyChanges ⟨[], [(0, []), (1, [])]⟩
          (compute_changes ⟨[], [(0, []), (1, [])]⟩
            ⟨[], [(0, [mongoApp]), (1, [])]⟩)) = []) ∧
      (appsOn 0 (applyChanges portsActual
          (compute_changes portsActual portsDesired)) =
        [⟨"mongodb-example-application", "clusterhq/mongodb",
          [⟨27017, 27018⟩],
          [⟨"/some_path", "/data/db"⟩, ⟨"/some_path", "/data/log"⟩],
          ActivationState.active⟩] ∧
        appsOn 1 (applyChanges portsActual
          (compute_changes portsActual portsDesired)) = [])) :=
  ⟨⟨by decide, by decide⟩,
    deployment_with_ports mongoApp 27017 27018 (by decide) 0 1 (by decide)⟩

/-! ## The Rackspace provisioner -/

/-- C10: `Rackspace.create_node` first issues the driver `create_node`
call — using the configured `_keyname` when the `keyname` argument is
None — then awaits `wait_until_running`, then runs `install` on the
resulting address as user "root", and only then returns: the returned
`RackspaceNode` carries exactly the node and the address produced by
`wait_until_running`, and the recorded call sequence places the
wait-until-running step and the install step (on the returned address)
before the return. -/
theorem rackspace_create_node_spec (r : Rackspace)
    (name image_name : String) (userdata : Option String) (size : String)
    (disk_size : Nat) (keyname : Option String) (hk : keyname = none) :
    (r.create_node name image_name userdata size disk_size keyname).1.node =
        (r.driver.wait_until_running (r.driver.create_node name
          (r.driver.get_image image_name) (r.driver.get_size size)
          r.keyname userdata "true")).1 ∧
      (r.create_node name image_name userdata size disk_size
          keyname).1.address =
        (r.driver.wait_until_running (r.driver.create_node name
          (r.driver.get_image image_name) (r.driver.get_size size)
          r.keyname userdata "true")).2 ∧
      (r.create_node name image_name userdata size disk_size keyname).2 =
        [ProvisionEvent.driver_create_node name
            (r.driver.get_image image_name) (r.driver.get_size size)
            r.keyname userdata "true",
          ProvisionEvent.wait_until_running
            (r.create_node name image_name userdata size disk_size
              keyname).1.node
            (r.create_node name image_name userdata size disk_size
              keyname).1.address,
          ProvisionEvent.install
            [(r.create_node name image_name userdata size disk_size
              keyname).1.address] "root"] := by
  subst hk
  exact ⟨rfl, rfl, rfl⟩

theorem rackspace_create_node_spec_witness :
    (sampleRackspace.create_node "node1" "fedora-20" none "performance1-2"
        8 none).1.node = ⟨8⟩ ∧
      (sampleRackspace.create_node "node1" "fedora-20" none "performance1-2"
        8 none).1.address = "10.0.0.1" ∧
      (sampleRackspace.create_node "node1" "fedora-20" none "performance1-2"
        8 none).2 =
        [ProvisionEvent.driver_create_node "node1" "fedora-20"
            "performance1-2" "configured-key" none "true",
          ProvisionEvent.wait_until_running ⟨8⟩ "10.0.0.1",
          ProvisionEvent.install ["10.0.0.1"] "root"] :=
  rackspace_create_node_spec sampleRackspace "node1" "fedora-20" none
    "performance1-2" 8 none rfl

end Flocker
